import Mathlib

/-!
# Verification of the reactive dependency-tracking engine

Shallow embedding of the reactivity core found in
`src/Vue篇/实现响应系统/实现watch.js` (three progressively-extended
variants, concatenated) and `src/unnamed/part_000`.

Effects are identified by natural-number ids.  JavaScript `Set`s are
modelled as duplicate-free lists in insertion order (`jsSetAdd` adds an
element only when absent, like `Set.prototype.add`).  `Map`s keyed by
property keys are modelled as association lists or functions, with a
missing key reading as the empty subscriber set (in the source,
`depsMap.get(key)` yields `undefined` and `new Set(undefined)` is empty,
while `effects && effects.forEach` skips).
-/

namespace Reactivity

/-- `Set.prototype.add`: append only when the element is absent. -/
def jsSetAdd (l : List Nat) (e : Nat) : List Nat :=
  if e ∈ l then l else l ++ [e]

/-- `new Set(iterable)`: insert the elements in order, deduplicating. -/
def jsSetOf (l : List Nat) : List Nat :=
  l.foldl jsSetAdd []

/-- A dependency key of the store: a numeric (array-index) string key, a
non-numeric string key (such as `"length"` on arrays), or the
`ITERATE_KEY` symbol used for `for...in` tracking on plain records. -/
inductive DepKey where
  | idx (n : Nat)
  | name (s : String)
  | iter
deriving DecidableEq, Repr

/-- `depsMap.get(key)` with a missing key reading as the empty set. -/
def lookupDeps (m : List (DepKey × List Nat)) (k : DepKey) : List Nat :=
  match m with
  | [] => []
  | (k₁, es) :: rest => if k₁ = k then es else lookupDeps rest k

/-- The guarded insertion loop of `trigger`:
`effects.forEach(e => { if (e !== activeEffect) effectsToRun.add(e) })`. -/
def addGuarded (active : Option Nat) (acc : List Nat) (es : List Nat) : List Nat :=
  es.foldl (fun acc e => if some e ≠ active then jsSetAdd acc e else acc) acc

/-- `trigger(target, key)` of the first/second variants
(`实现watch.js` lines 94–119): the set of effects chosen to run.  The
source first copies the whole subscriber set (`new Set(effects)`), and
only then runs the guarded loop that compares each effect with
`activeEffect` — so the copy already contains the active effect. -/
def triggerV1 (depsMap : List (DepKey × List Nat)) (active : Option Nat)
    (key : DepKey) : List Nat :=
  let effects := lookupDeps depsMap key
  let effectsToRun := jsSetOf effects
  addGuarded active effectsToRun effects

/-- The `TriggerType` enumeration (`SET` / `ADD` / `DELETE`). -/
inductive TriggerType where
  | set
  | add
  | delete
deriving DecidableEq, Repr

/-- The JavaScript comparison `key >= newValue` performed while scanning
`depsMap` on a `length` write: a numeric string key coerces to its
number; a non-numeric string coerces to `NaN` and every comparison with
`NaN` is false.  (For arrays the store never holds the `ITERATE_KEY`
symbol, since `ownKeys` tracks `"length"` instead.) -/
def keyGeNum : DepKey → Nat → Bool
  | DepKey.idx n, v => v ≤ n
  | DepKey.name _, _ => false
  | DepKey.iter, _ => false

/-- `trigger(target, key, type, newValue)` of the third variant
(`实现watch.js` lines 588–642): the set of effects chosen to run.
After the base copy and guarded loop it applies the type-specific
fan-out: on an array `length` write it also selects every subscriber of
an index `≥ newValue`; on `ADD` to an array it selects the `length`
subscribers; on `ADD`/`DELETE` it selects the `ITERATE_KEY`
subscribers. -/
def triggerV3 (depsMap : List (DepKey × List Nat)) (active : Option Nat)
    (isArray : Bool) (key : DepKey) (ty : TriggerType) (newValue : Nat) : List Nat :=
  let effects := lookupDeps depsMap key
  let r₀ := jsSetOf effects
  let r₁ := addGuarded active r₀ effects
  let r₂ :=
    if isArray ∧ key = DepKey.name "length" then
      depsMap.foldl
        (fun acc p => if keyGeNum p.1 newValue then addGuarded active acc p.2 else acc) r₁
    else r₁
  let r₃ :=
    if ty = TriggerType.add ∧ isArray then
      addGuarded active r₂ (lookupDeps depsMap (DepKey.name "length"))
    else r₂
  let r₄ :=
    if ty = TriggerType.add ∨ ty = TriggerType.delete then
      addGuarded active r₃ (lookupDeps depsMap DepKey.iter)
    else r₃
  r₄

/-- The `type` classification of the third variant's `set` trap for an
array target (line 534): `Number(key) < target.length ? SET : ADD`.  A
non-numeric key such as `"length"` coerces to `NaN`, the comparison is
false, and the type is `ADD`. -/
def classifyArraySet (key : DepKey) (len : Nat) : TriggerType :=
  match key with
  | DepKey.idx n => if n < len then TriggerType.set else TriggerType.add
  | _ => TriggerType.add

/-- A JavaScript primitive value, as far as the traps compare them:
a (non-`NaN`) number, the `NaN` sentinel, a string, a boolean, or
`undefined`. -/
inductive JSVal where
  | num (q : Int)
  | nan
  | str (s : String)
  | bool (b : Bool)
  | undef
deriving DecidableEq, Repr

/-- JavaScript strict equality `===` on the primitives above: values of
different kinds are unequal, `NaN === NaN` is false, and otherwise the
comparison is structural. -/
def jsStrictEq : JSVal → JSVal → Bool
  | JSVal.num a, JSVal.num b => a == b
  | JSVal.nan, JSVal.nan => false
  | JSVal.str a, JSVal.str b => a == b
  | JSVal.bool a, JSVal.bool b => a == b
  | JSVal.undef, JSVal.undef => true
  | _, _ => false

/-- Whether a value is the not-a-number sentinel (the unique value `v`
with `v !== v`). -/
def isNaNVal : JSVal → Bool
  | JSVal.nan => true
  | _ => false

/-- The observable outcome of one `set` / `deleteProperty` trap call:
whether the underlying object was mutated, whether `trigger` was called,
whether a warning was printed, and the boolean reported back to the
caller.  Normal completion of the trap is modelled by totality: every
path of the source returns, none throws. -/
structure TrapResult where
  mutated : Bool
  triggered : Bool
  warned : Bool
  result : Bool
deriving DecidableEq, Repr

/-- The `set` trap of the third variant (`实现watch.js` lines 525–546).
Read-only handles warn and return `true` without writing or triggering.
Otherwise the write is performed (`Reflect.set`, modelled as
succeeding), and `trigger` is called exactly when the write reached the
handle's own target (`target === receiver.raw`) and
`oldValue !== newValue && (oldValue === oldValue || newValue === newValue)`. -/
def setTrap (isReadonly : Bool) (oldValue newValue : JSVal) (sameRaw : Bool) : TrapResult :=
  if isReadonly then
    { mutated := false, triggered := false, warned := true, result := true }
  else
    { mutated := true
      triggered := sameRaw &&
        (!jsStrictEq oldValue newValue &&
          (jsStrictEq oldValue oldValue || jsStrictEq newValue newValue))
      warned := false
      result := true }

/-- The `deleteProperty` trap of the third variant (`实现watch.js`
lines 548–563).  Read-only handles warn and return `true` without
deleting or triggering; otherwise `Reflect.deleteProperty` runs and
`trigger` fires only when the key was an own property and the delete
succeeded. -/
def deleteTrap (isReadonly : Bool) (hadKey : Bool) (delOk : Bool) : TrapResult :=
  if isReadonly then
    { mutated := false, triggered := false, warned := true, result := true }
  else
    { mutated := delOk
      triggered := delOk && hadKey
      warned := false
      result := delOk }

/-- An intermediate result of an array search method: `includes` yields
a boolean, `indexOf` / `lastIndexOf` yield a number (`-1` when the
element is absent). -/
inductive JSRes where
  | b (v : Bool)
  | n (v : Int)
deriving DecidableEq, Repr

/-- The raw-array fallback of `arrayInstrumentations` (`实现watch.js`
lines 462–471): `if (res === false) res = originMethod.apply(this.raw, args)`.
The re-search result is taken only when the first result is strictly
equal to `false`. -/
def rawFallback (viewRes rawRes : JSRes) : JSRes :=
  if viewRes = JSRes.b false then rawRes else viewRes

/-- `Array.prototype.indexOf` on a list of element identities. -/
def listIndexOf (l : List Nat) (x : Nat) : Int :=
  match l with
  | [] => -1
  | y :: rest =>
    if y = x then 0
    else
      let r := listIndexOf rest x
      if r < 0 then -1 else r + 1

/-- `Array.prototype.lastIndexOf` on a list of element identities. -/
def listLastIndexOf (l : List Nat) (x : Nat) : Int :=
  match l with
  | [] => -1
  | y :: rest =>
    let r := listLastIndexOf rest x
    if r < 0 then (if y = x then 0 else -1) else r + 1

/-- The instrumented `includes`: search the wrapped (tracked) view, then
fall back to the raw array when the first result is `=== false`. -/
def instrumentedIncludes (view raw : List Nat) (x : Nat) : JSRes :=
  rawFallback (JSRes.b (view.contains x)) (JSRes.b (raw.contains x))

/-- The instrumented `indexOf`: search the wrapped view, then apply the
same `=== false` fallback test to the numeric result. -/
def instrumentedIndexOf (view raw : List Nat) (x : Nat) : JSRes :=
  rawFallback (JSRes.n (listIndexOf view x)) (JSRes.n (listIndexOf raw x))

/-- The instrumented `lastIndexOf`, with the same fallback test. -/
def instrumentedLastIndexOf (view raw : List Nat) (x : Nat) : JSRes :=
  rawFallback (JSRes.n (listLastIndexOf view x)) (JSRes.n (listLastIndexOf raw x))

/-!
## Computed cells (`src/unnamed/part_000`, lines 177–206)

The scenario of the computed-caching property: a reactive record with
two numeric fields `x` and `y`, and the cell
`computed(() => { testNum++; return obj.x + obj.y })`.  The cell owns a
cached `value`, a `dirty` flag (initially `true`), and a lazy effect
over the getter whose scheduler sets `dirty = true` when a tracked
field is written.  Reading `cell.value` runs the effect only when
`dirty`, then caches the result and clears the flag.  `runs` counts the
getter's executions (the `testNum++` instrumentation of the source's
own demo).  The proxy of `part_000` (lines 56–74) triggers on every
write, so a write marks the cell dirty whenever the cell's effect is
subscribed; before the first read the flag is already `true`, making
the unconditional `dirty := true` on write observationally exact. -/
structure CompSys where
  x : Nat
  y : Nat
  cache : Nat
  dirty : Bool
  runs : Nat
deriving DecidableEq, Repr

/-- The state right after `computed(getter)` returns: nothing has run
(the effect is lazy), the flag is dirty, the cache holds the initial
`undefined` (modelled as `0`; it is never read while dirty). -/
def compInit (x₀ y₀ : Nat) : CompSys :=
  { x := x₀, y := y₀, cache := 0, dirty := true, runs := 0 }

/-- One operation of the scenario: read `cell.value`, or write one of
the two tracked fields through the proxy. -/
inductive CompOp where
  | readC
  | writeX (n : Nat)
  | writeY (n : Nat)
deriving DecidableEq, Repr

/-- The `get value()` accessor: when dirty, run the effect (the getter
re-reads `x` and `y` and is counted), store the result and clear the
flag; then return the cache. -/
def compStep (s : CompSys) : CompOp → CompSys
  | CompOp.readC =>
    if s.dirty then
      { s with cache := s.x + s.y, dirty := false, runs := s.runs + 1 }
    else s
  | CompOp.writeX n => { s with x := n, dirty := true }
  | CompOp.writeY n => { s with y := n, dirty := true }

/-- The value a read of `cell.value` returns in state `s`. -/
def compReadValue (s : CompSys) : Nat :=
  (compStep s CompOp.readC).cache

/-- Run a sequence of scenario operations. -/
def compRun (s : CompSys) (ops : List CompOp) : CompSys :=
  ops.foldl compStep s

/-!
## The batching scheduler (`实现watch.js` lines 356–398)

`jobQueue` is a `Set` (a duplicate-free list), `isFlushing` a flag, and
`flushJob` enqueues at most one microtask (counted by `pending`) that
will run every queued job once and clear the flag. -/
structure FlushState where
  jobQueue : List Nat
  isFlushing : Bool
  pending : Nat
deriving DecidableEq, Repr

/-- The initial scheduler state: empty queue, not flushing. -/
def flushInit : FlushState :=
  { jobQueue := [], isFlushing := false, pending := 0 }

/-- `flushJob()`: a no-op while a flush is pending; otherwise set the
flag and enqueue one microtask. -/
def flushJob (s : FlushState) : FlushState :=
  if s.isFlushing then s
  else { s with isFlushing := true, pending := s.pending + 1 }

/-- The batching scheduler body (lines 385–398):
`jobQueue.add(fn); flushJob()`. -/
def schedule (s : FlushState) (r : Nat) : FlushState :=
  flushJob { s with jobQueue := jsSetAdd s.jobQueue r }

/-- `schedule` iterated `n` times on the same runner, one synchronous
phase. -/
def scheduleN (r : Nat) : Nat → FlushState
  | 0 => flushInit
  | n + 1 => schedule (scheduleN r n) r

/-- The pending microtask: `jobQueue.forEach(job => job())` then
`finally(() => { isFlushing = false })`.  Returns the new state and the
list of job executions, in queue order. -/
def runFlush (s : FlushState) : FlushState × List Nat :=
  ({ s with isFlushing := false }, s.jobQueue)

/-!
## Dependency precision (`实现watch.js` lines 12–54 and 76–91)

The store restricted to one observed effect `E`: `subs loc` is the
subscriber set of the location `loc = (target, key)`, and `deps` is
`E`'s own reverse index (`effectFn.deps`), listing every set `E` was
added to.  Other effects may populate `subs` arbitrarily. -/
structure DepState where
  subs : Nat × DepKey → List Nat
  deps : List (Nat × DepKey)

/-- `cleanup(effectFn)`: delete `E` from each set recorded in `deps`,
then reset `deps` to length 0. -/
def cleanupE (E : Nat) (st : DepState) : DepState :=
  { subs := fun loc =>
      if loc ∈ st.deps then (st.subs loc).filter (fun e => e ≠ E) else st.subs loc
    deps := [] }

/-- `track(target, key)` with `E` active: add `E` to the subscriber set
of the location and push that set onto `E.deps`. -/
def trackE (E : Nat) (st : DepState) (loc : Nat × DepKey) : DepState :=
  { subs := fun l => if l = loc then jsSetAdd (st.subs l) E else st.subs l
    deps := st.deps ++ [loc] }

/-- One run of the effect body: cleanup first, then track every
location the body reads this time, in order. -/
def runEffectE (E : Nat) (reads : List (Nat × DepKey)) (st : DepState) : DepState :=
  reads.foldl (trackE E) (cleanupE E st)

/-- The store invariant the source maintains for every effect: each
subscriber set containing `E` is recorded in `E.deps` (both additions
happen together in `track`). -/
def DepWF (E : Nat) (st : DepState) : Prop :=
  ∀ loc, E ∈ st.subs loc → loc ∈ st.deps

/-!
## The watcher (`实现watch.js` lines 145–198)

The scenario of the old/new-value property: `obj = wrap({ foo })`,
`watch(() => obj.foo, cb, {})`.  `cbCalls` records every invocation of
`cb` as a `(newValue, oldValue)` pair (`oldValue` is `undefined`
before the first capture, hence an `Option`). -/
structure WatchSys where
  foo : Nat
  oldValue : Option Nat
  cbCalls : List (Nat × Option Nat)
deriving DecidableEq, Repr

/-- The `job` closure (lines 165–174): re-run the getter for the new
value, call `cb(newValue, oldValue, onInvalidate)`, then roll
new → old.  (The scenario's callback registers no invalidate handler,
so the `if (cleanup) cleanup()` guard is skipped.) -/
def watchJob (s : WatchSys) : WatchSys :=
  { s with oldValue := some s.foo
           cbCalls := s.cbCalls ++ [(s.foo, s.oldValue)] }

/-- `watch` setup without the `immediate` flag (line 196): the lazy
effect is run once by hand, purely capturing `oldValue`; `cb` is not
called. -/
def watchSetup (foo₀ : Nat) : WatchSys :=
  { foo := foo₀, oldValue := some foo₀, cbCalls := [] }

/-- A write `obj.foo = v` through the proxy: assign, then `trigger`
selects the watch effect (id `0`, the sole subscriber of `foo`, with no
effect active at the write); its scheduler sees `flush ≠ 'post'` and
calls `job()` synchronously, once per selected effect. -/
def watchWrite (s : WatchSys) (v : Nat) : WatchSys :=
  let s₁ := { s with foo := v }
  (triggerV1 [(DepKey.name "foo", [0])] none (DepKey.name "foo")).foldl
    (fun st _ => watchJob st) s₁

/-!
## The wrapper cache (`实现watch.js` lines 483–491 and 565–567)

`reactiveMap` maps an underlying object (by identity, modelled as an
id) to the proxy created for it.  A proxy is characterised by the
creation parameters it closed over. -/
structure ProxyRec where
  objId : Nat
  isShallow : Bool
  isReadonly : Bool
deriving DecidableEq, Repr

/-- The `reactiveMap` cache, keyed by the underlying object alone. -/
abbrev ReactiveMap := List (Nat × ProxyRec)

/-- `reactiveMap.get(obj)`. -/
def lookupProxy (m : ReactiveMap) (o : Nat) : Option ProxyRec :=
  match m with
  | [] => none
  | (k, p) :: rest => if k = o then some p else lookupProxy rest o

/-- `getProxyObj(obj, isShallow, isReadonly)`: return the cached proxy
when one exists — without consulting the requested flags — otherwise
create a proxy closing over the flags and cache it under `obj`. -/
def getProxyObj (m : ReactiveMap) (o : Nat) (isShallow isReadonly : Bool) :
    ProxyRec × ReactiveMap :=
  match lookupProxy m o with
  | some p => (p, m)
  | none =>
    let p : ProxyRec := { objId := o, isShallow := isShallow, isReadonly := isReadonly }
    (p, m ++ [(o, p)])

/-!
## Shared lemmas
-/

/-- Membership in a `Set.prototype.add` step. -/
theorem mem_jsSetAdd {l : List Nat} {a e : Nat} : e ∈ jsSetAdd l a ↔ e ∈ l ∨ e = a := by
  unfold jsSetAdd
  by_cases h : a ∈ l
  · rw [if_pos h]
    constructor
    · exact Or.inl
    · rintro (he | rfl)
      · exact he
      · exact h
  · simp [h]

/-- Reading a clean computed cell leaves the state untouched. -/
theorem compStep_read_clean {s : CompSys} (h : s.dirty = false) :
    compStep s CompOp.readC = s := by
  simp [compStep, h]

/-- Any number of reads of a clean cell leaves the state untouched. -/
theorem compRun_reads_clean {s : CompSys} (h : s.dirty = false) (k : Nat) :
    compRun s (List.replicate k CompOp.readC) = s := by
  induction k with
  | zero => rfl
  | succ n ih =>
    rw [List.replicate_succ]
    show compRun (compStep s CompOp.readC) (List.replicate n CompOp.readC) = s
    rw [compStep_read_clean h]; exact ih

/-- One-or-more reads of a dirty cell recompute the getter exactly
once, cache the sum, and clear the flag. -/
theorem compRun_dirty_reads {s : CompSys} (h : s.dirty = true) (m : Nat) :
    compRun s (List.replicate (m + 1) CompOp.readC) =
      { x := s.x, y := s.y, cache := s.x + s.y, dirty := false, runs := s.runs + 1 } := by
  rw [List.replicate_succ]
  show compRun (compStep s CompOp.readC) (List.replicate m CompOp.readC) = _
  have hstep : compStep s CompOp.readC =
      { x := s.x, y := s.y, cache := s.x + s.y, dirty := false, runs := s.runs + 1 } := by
    simp [compStep, h]
  rw [hstep, compRun_reads_clean rfl]

/-- One or more schedulings of the same runner from the idle state
produce a singleton queue and exactly one pending microtask. -/
theorem scheduleN_succ (r n : Nat) :
    scheduleN r (n + 1) = { jobQueue := [r], isFlushing := true, pending := 1 } := by
  induction n with
  | zero => rfl
  | succ k ih =>
    show schedule (scheduleN r (k + 1)) r = _
    rw [ih]
    simp [schedule, flushJob, jsSetAdd]

/-- After `cleanup`, the effect belongs to no subscriber set (using the
store invariant that every set holding it is listed in its `deps`). -/
theorem cleanupE_not_mem (E : Nat) (st : DepState) (h : DepWF E st) (loc : Nat × DepKey) :
    E ∉ (cleanupE E st).subs loc := by
  unfold cleanupE
  by_cases hl : loc ∈ st.deps
  · simp [hl]
  · simp only [hl, if_neg, ite_false]
    intro hmem
    exact hl (h loc hmem)

/-- Folding `track` over the locations read adds the effect exactly to
those locations. -/
theorem trackFold_mem (E : Nat) (reads : List (Nat × DepKey)) (st : DepState)
    (loc : Nat × DepKey) :
    E ∈ (reads.foldl (trackE E) st).subs loc ↔ E ∈ st.subs loc ∨ loc ∈ reads := by
  induction reads generalizing st with
  | nil => simp
  | cons r rest ih =>
    show E ∈ (rest.foldl (trackE E) (trackE E st r)).subs loc ↔ _
    rw [ih]
    have hstep : E ∈ (trackE E st r).subs loc ↔ loc = r ∨ E ∈ st.subs loc := by
      unfold trackE
      by_cases hlr : loc = r
      · simp [hlr, mem_jsSetAdd]
      · simp [hlr]
    rw [hstep]
    simp [List.mem_cons]
    tauto

/-- Appending a fresh cache entry makes it the lookup result for its
key. -/
theorem lookupProxy_append (m : ReactiveMap) (o : Nat) (p : ProxyRec)
    (h : lookupProxy m o = none) :
    lookupProxy (m ++ [(o, p)]) o = some p := by
  induction m with
  | nil => simp [lookupProxy]
  | cons hd tl ih =>
    obtain ⟨k, q⟩ := hd
    simp only [lookupProxy, List.cons_append] at h ⊢
    by_cases hk : k = o
    · simp [hk] at h
    · rw [if_neg hk] at h ⊢
      exact ih h

/-!
## The claims
-/

/-- C1: the spec (and the code's own comment on the guard) say the set
of effects chosen to run by `trigger` never contains the currently
executing effect, so an effect performing `i++` on a tracked property
does not retrigger itself.  The code violates this: `effectsToRun` is
initialised as `new Set(effects)` — a full copy that already contains
the active effect — before the `effect !== activeEffect` guard runs, so
with effect `0` as the sole subscriber of the key and currently active,
`trigger` still selects effect `0` and re-runs it (unbounded recursion
for `i++`). -/
theorem trigger_selects_active_effect :
    0 ∈ triggerV1 [(DepKey.name "count", [0])] (some 0) (DepKey.name "count")
  ∧ triggerV1 [(DepKey.name "count", [0])] (some 0) (DepKey.name "count") = [0] := by
  decide

/-- C2: for a computed cell over `() => a.x + a.y`, any number of
repeated reads of `c.value` executes the getter exactly once (the run
counter stays at 1, the dirty flag is clear, and every read returns the
cached sum); after a write that changes `a.x` (or `a.y`), the next
read — and only that one — runs the getter once more and returns the
updated sum. -/
theorem computed_caching (x₀ y₀ k m n p : Nat) (hx : n ≠ x₀) (hy : p ≠ y₀) :
    (compRun (compInit x₀ y₀) (List.replicate (k + 1) CompOp.readC)).runs = 1
  ∧ (compRun (compInit x₀ y₀) (List.replicate (k + 1) CompOp.readC)).dirty = false
  ∧ compReadValue (compRun (compInit x₀ y₀) (List.replicate (k + 1) CompOp.readC)) = x₀ + y₀
  ∧ (compRun (compRun (compInit x₀ y₀) (List.replicate (k + 1) CompOp.readC))
        (CompOp.writeX n :: List.replicate (m + 1) CompOp.readC)).runs = 2
  ∧ compReadValue (compRun (compRun (compInit x₀ y₀) (List.replicate (k + 1) CompOp.readC))
        (CompOp.writeX n :: List.replicate (m + 1) CompOp.readC)) = n + y₀
  ∧ (compRun (compRun (compInit x₀ y₀) (List.replicate (k + 1) CompOp.readC))
        (CompOp.writeY p :: List.replicate (m + 1) CompOp.readC)).runs = 2
  ∧ compReadValue (compRun (compRun (compInit x₀ y₀) (List.replicate (k + 1) CompOp.readC))
        (CompOp.writeY p :: List.replicate (m + 1) CompOp.readC)) = x₀ + p := by
  have h1 : compRun (compInit x₀ y₀) (List.replicate (k + 1) CompOp.readC) =
      { x := x₀, y := y₀, cache := x₀ + y₀, dirty := false, runs := 1 } :=
    compRun_dirty_reads rfl k
  rw [h1]
  have hwx : compRun { x := x₀, y := y₀, cache := x₀ + y₀, dirty := false, runs := 1 }
      (CompOp.writeX n :: List.replicate (m + 1) CompOp.readC) =
      { x := n, y := y₀, cache := n + y₀, dirty := false, runs := 2 } := by
    show compRun (compStep _ (CompOp.writeX n)) (List.replicate (m + 1) CompOp.readC) = _
    rw [compRun_dirty_reads rfl m]
    simp [compStep]
  have hwy : compRun { x := x₀, y := y₀, cache := x₀ + y₀, dirty := false, runs := 1 }
      (CompOp.writeY p :: List.replicate (m + 1) CompOp.readC) =
      { x := x₀, y := p, cache := x₀ + p, dirty := false, runs := 2 } := by
    show compRun (compStep _ (CompOp.writeY p)) (List.replicate (m + 1) CompOp.readC) = _
    rw [compRun_dirty_reads rfl m]
    simp [compStep]
  rw [hwx, hwy]
  refine ⟨rfl, rfl, ?_, rfl, ?_, rfl, ?_⟩ <;> simp [compReadValue, compStep]

/-- Witness for C2 at `a.x = 1`, `a.y = 2`, one extra read each side,
and the changing writes `a.x := 5`, `a.y := 7`. -/
theorem computed_caching_witness :
    (5 ≠ 1) ∧ (7 ≠ 2) ∧
    ((compRun (compInit 1 2) (List.replicate (0 + 1) CompOp.readC)).runs = 1
  ∧ (compRun (compInit 1 2) (List.replicate (0 + 1) CompOp.readC)).dirty = false
  ∧ compReadValue (compRun (compInit 1 2) (List.replicate (0 + 1) CompOp.readC)) = 1 + 2
  ∧ (compRun (compRun (compInit 1 2) (List.replicate (0 + 1) CompOp.readC))
        (CompOp.writeX 5 :: List.replicate (0 + 1) CompOp.readC)).runs = 2
  ∧ compReadValue (compRun (compRun (compInit 1 2) (List.replicate (0 + 1) CompOp.readC))
        (CompOp.writeX 5 :: List.replicate (0 + 1) CompOp.readC)) = 5 + 2
  ∧ (compRun (compRun (compInit 1 2) (List.replicate (0 + 1) CompOp.readC))
        (CompOp.writeY 7 :: List.replicate (0 + 1) CompOp.readC)).runs = 2
  ∧ compReadValue (compRun (compRun (compInit 1 2) (List.replicate (0 + 1) CompOp.readC))
        (CompOp.writeY 7 :: List.replicate (0 + 1) CompOp.readC)) = 1 + 7) :=
  ⟨by decide, by decide, computed_caching 1 2 0 0 5 7 (by decide) (by decide)⟩

/-- C3: scheduling the same runner `r` any number `N ≥ 1` of times
within one synchronous phase with the batching scheduler leaves exactly
`r` in the deduplicated queue, enqueues exactly one flush microtask, the
flush executes `r` exactly once, and a further `flushJob` call while the
flush is pending is a no-op. -/
theorem batching_idempotence (r N : Nat) (h : 1 ≤ N) :
    (scheduleN r N).jobQueue = [r]
  ∧ (scheduleN r N).pending = 1
  ∧ (runFlush (scheduleN r N)).2.count r = 1
  ∧ flushJob (scheduleN r N) = scheduleN r N := by
  obtain ⟨n, rfl⟩ : ∃ n, N = n + 1 := ⟨N - 1, by omega⟩
  rw [scheduleN_succ]
  refine ⟨rfl, rfl, ?_, rfl⟩
  simp [runFlush]

/-- Witness for C3 at runner `0` scheduled twice. -/
theorem batching_idempotence_witness :
    1 ≤ 2 ∧
    ((scheduleN 0 2).jobQueue = [0]
  ∧ (scheduleN 0 2).pending = 1
  ∧ (runFlush (scheduleN 0 2)).2.count 0 = 1
  ∧ flushJob (scheduleN 0 2) = scheduleN 0 2) :=
  ⟨by decide, batching_idempotence 0 2 (by decide)⟩

/-- C4: after a run of effect `E` whose body read exactly the locations
`reads`, `E` belongs to the subscriber set of a location if and only if
that location was read during this run — `cleanup` first removes `E`
from every set it previously belonged to, and `track` re-adds only this
run's reads, so a key read only in a no-longer-taken branch stops
retriggering `E`.  The hypothesis is the store invariant the source
maintains (every set containing `E` is recorded in `E.deps`). -/
theorem dependency_precision (E : Nat) (reads : List (Nat × DepKey)) (st : DepState)
    (loc : Nat × DepKey) (h : DepWF E st) :
    E ∈ (runEffectE E reads st).subs loc ↔ loc ∈ reads := by
  unfold runEffectE
  rw [trackFold_mem]
  have := cleanupE_not_mem E st h loc
  tauto

/-- Witness for C4: effect `0` reading the single location
`(0, "a")` from the empty store. -/
theorem dependency_precision_witness :
    DepWF 0 { subs := fun _ => [], deps := [] } ∧
    (0 ∈ (runEffectE 0 [(0, DepKey.name "a")]
          { subs := fun _ => [], deps := [] }).subs (0, DepKey.name "a")
      ↔ (0, DepKey.name "a") ∈ [(0, DepKey.name "a")]) :=
  ⟨fun loc hmem => absurd hmem (List.not_mem_nil _),
   dependency_precision 0 [(0, DepKey.name "a")] { subs := fun _ => [], deps := [] }
     (0, DepKey.name "a") (fun loc hmem => absurd hmem (List.not_mem_nil _))⟩

/-- C5: with effect `E` subscribed to index `i` of a reactive array of
length `L` (`i < L`), a `length` write selects `E` exactly when the new
length is `≤ i` (every subscriber of an index `≥` the new length is
included); in particular the write `length = i` retriggers `E` while
the pure-growth write `length = L + 1` does not.  The trigger type is
the one the `set` trap computes for the key `"length"`
(`Number("length")` is `NaN`, so the classification is `ADD`). -/
theorem length_write_invalidation (i L E v : Nat) (h : i < L) :
    (E ∈ triggerV3 [(DepKey.idx i, [E])] none true (DepKey.name "length")
        (classifyArraySet (DepKey.name "length") L) v ↔ v ≤ i)
  ∧ E ∈ triggerV3 [(DepKey.idx i, [E])] none true (DepKey.name "length")
        (classifyArraySet (DepKey.name "length") L) i
  ∧ E ∉ triggerV3 [(DepKey.idx i, [E])] none true (DepKey.name "length")
        (classifyArraySet (DepKey.name "length") L) (L + 1) := by
  have hgt : ¬ (L + 1 ≤ i) := by omega
  refine ⟨?_, ?_, ?_⟩
  · by_cases hv : v ≤ i <;>
      simp [triggerV3, lookupDeps, jsSetOf, addGuarded, keyGeNum, classifyArraySet, jsSetAdd, hv]
  · simp [triggerV3, lookupDeps, jsSetOf, addGuarded, keyGeNum, classifyArraySet, jsSetAdd]
  · simp [triggerV3, lookupDeps, jsSetOf, addGuarded, keyGeNum, classifyArraySet, jsSetAdd, hgt]

/-- Witness for C5 at `i = 1`, `L = 2`, effect `0`, probe `v = 1`. -/
theorem length_write_invalidation_witness :
    1 < 2 ∧
    ((0 ∈ triggerV3 [(DepKey.idx 1, [0])] none true (DepKey.name "length")
        (classifyArraySet (DepKey.name "length") 2) 1 ↔ 1 ≤ 1)
  ∧ 0 ∈ triggerV3 [(DepKey.idx 1, [0])] none true (DepKey.name "length")
        (classifyArraySet (DepKey.name "length") 2) 1
  ∧ 0 ∉ triggerV3 [(DepKey.idx 1, [0])] none true (DepKey.name "length")
        (classifyArraySet (DepKey.name "length") 2) (2 + 1)) :=
  ⟨by decide, length_write_invalidation 1 2 0 1 (by decide)⟩

/-- C6: on a non-read-only handle the `set` trap calls `trigger` if and
only if the write reached the handle's own target (not a prototype
chain) and the new value differs from the old under strict equality,
with the both-`NaN` case counting as unchanged; the write itself is
always performed and no warning is printed. -/
theorem set_trigger_condition (oldV newV : JSVal) (sameRaw : Bool) :
    ((setTrap false oldV newV sameRaw).triggered =
      (sameRaw && !jsStrictEq oldV newV && !(isNaNVal oldV && isNaNVal newV)))
  ∧ (setTrap false oldV newV sameRaw).mutated = true
  ∧ (setTrap false oldV newV sameRaw).warned = false := by
  refine ⟨?_, rfl, rfl⟩
  cases oldV <;> cases newV <;> simp [setTrap, jsStrictEq, isNaNVal]

/-- C7: on a read-only handle every property write and every property
deletion is a no-op: the underlying object is unchanged, `trigger` is
never called, a warning is emitted, and `true` (success) is returned to
the caller — the traps return on this path rather than throwing. -/
theorem readonly_write_delete_noop (oldV newV : JSVal) (sameRaw hadKey delOk : Bool) :
    setTrap true oldV newV sameRaw =
      { mutated := false, triggered := false, warned := true, result := true }
  ∧ deleteTrap true hadKey delOk =
      { mutated := false, triggered := false, warned := true, result := true } :=
  ⟨rfl, rfl⟩

/-- C8: the spec (and the code's own comment) say each instrumented
search method re-searches the raw array exactly when the wrapped view
misses.  The code violates this for the index-returning methods: the
fallback test is `res === false`, which a numeric `-1` never satisfies,
so with raw element `0` stored in the array (seen as wrapped id `1`
through the handle) `indexOf` and `lastIndexOf` return `-1` even though
the raw search would find the element at index `0`; only `includes`
(whose miss result is the boolean `false`) reaches the raw search. -/
theorem indexOf_never_rechecks_raw :
    instrumentedIndexOf [1] [0] 0 = JSRes.n (-1)
  ∧ instrumentedLastIndexOf [1] [0] 0 = JSRes.n (-1)
  ∧ listIndexOf [0] 0 = 0
  ∧ listLastIndexOf [0] 0 = 0
  ∧ instrumentedIncludes [1] [0] 0 = JSRes.b true := by
  decide

/-- C9: with `a.foo` initialised to `a₀`, setting up
`watch(() => obj.foo, cb, {})` without the `immediate` flag runs the
getter once only to capture the old value and does not invoke `cb`; a
subsequent write `obj.foo = v` invokes `cb` exactly once with new value
`v` and old value `a₀`, after which the stored old value is `v`.  (The
claim's instance is `a₀ = 1`, `v = 2`.) -/
theorem watcher_old_new_values (a₀ v : Nat) :
    (watchSetup a₀).cbCalls = [] ∧ (watchSetup a₀).oldValue = some a₀
  ∧ watchWrite (watchSetup a₀) v =
      { foo := v, oldValue := some v, cbCalls := [(v, some a₀)] } := by
  refine ⟨rfl, rfl, ?_⟩
  simp [watchSetup, watchWrite, watchJob, triggerV1, lookupDeps, jsSetOf, addGuarded, jsSetAdd]

/-- C10: the wrapper cache is keyed by the underlying object alone.
When no handle exists yet for `o`, `getProxyObj m o s₁ r₁` creates and
caches a handle carrying the flags `(s₁, r₁)`, and any later call with
any flags `(s₂, r₂)` returns that same first handle unchanged (so a
read-only request for an object already wrapped mutable yields the
mutable handle), leaving the cache as it was. -/
theorem wrapper_cache_ignores_flags (m : ReactiveMap) (o : Nat) (s₁ r₁ s₂ r₂ : Bool)
    (h : lookupProxy m o = none) :
    (getProxyObj m o s₁ r₁).1 = { objId := o, isShallow := s₁, isReadonly := r₁ }
  ∧ lookupProxy (getProxyObj m o s₁ r₁).2 o = some (getProxyObj m o s₁ r₁).1
  ∧ (getProxyObj (getProxyObj m o s₁ r₁).2 o s₂ r₂).1 = (getProxyObj m o s₁ r₁).1
  ∧ (getProxyObj (getProxyObj m o s₁ r₁).2 o s₂ r₂).2 = (getProxyObj m o s₁ r₁).2 := by
  have h1 : getProxyObj m o s₁ r₁ =
      ({ objId := o, isShallow := s₁, isReadonly := r₁ },
       m ++ [(o, { objId := o, isShallow := s₁, isReadonly := r₁ })]) := by
    unfold getProxyObj
    rw [h]
  rw [h1]
  have h2 := lookupProxy_append m o { objId := o, isShallow := s₁, isReadonly := r₁ } h
  have h3 : getProxyObj (m ++ [(o, { objId := o, isShallow := s₁, isReadonly := r₁ })]) o s₂ r₂ =
      ({ objId := o, isShallow := s₁, isReadonly := r₁ },
       m ++ [(o, { objId := o, isShallow := s₁, isReadonly := r₁ })]) := by
    unfold getProxyObj
    rw [h2]
  rw [h3]
  exact ⟨rfl, h2, rfl, rfl⟩

/-- Witness for C10: object `0` in the empty cache, wrapped mutable and
then requested read-only. -/
theorem wrapper_cache_ignores_flags_witness :
    lookupProxy [] 0 = none ∧
    ((getProxyObj [] 0 false false).1 =
        { objId := 0, isShallow := false, isReadonly := false }
  ∧ lookupProxy (getProxyObj [] 0 false false).2 0 = some (getProxyObj [] 0 false false).1
  ∧ (getProxyObj (getProxyObj [] 0 false false).2 0 true true).1 =
      (getProxyObj [] 0 false false).1
  ∧ (getProxyObj (getProxyObj [] 0 false false).2 0 true true).2 =
      (getProxyObj [] 0 false false).2) :=
  ⟨rfl, wrapper_cache_ignores_flags [] 0 false false true true rfl⟩

end Reactivity
